import Mathlib

/-!
Verification development for `cfp-sphinx.py`.

The script connects to a MariaDB database holding a four-level
administrative hierarchy (gubernia → uezd → locality → church), creates
one directory per row and writes one reStructuredText index file per
generated directory, using the `tree_templ` template.

Shallow embedding conventions:

* A filesystem path is the list of segments that `os.path.join`
  concatenates, taken relative to the process working directory.  The
  script's output root is `<cwd>/nsa/cfp`, embedded as the segment list
  `["nsa", "cfp"]`.
* Each `cursor.execute`/`fetchall` pair is a pure lookup: the `DB`
  structure maps a parent id to the list of `(id, name)` rows the
  corresponding `SELECT` returns, in the order the cursor yields them.
  Row ids are modelled as `Nat` (auto-increment primary keys).
* The run's side effects are captured as the ordered list of `Op`
  operations (`os.makedirs` and index-file writes) that
  `CfpSphinx.generate` performs; `applyOps` interprets that list over an
  explicit filesystem state.
-/

/-- A filesystem path as the list of segments joined by `os.path.join`. -/
abbrev FsPath := List String

/-- One row returned by a cursor query: an `(id, name)` pair. -/
structure Row where
  id : Nat
  name : String
deriving DecidableEq

/-- The queryable state of the database, one field per `SELECT` the
script issues: the full gubernia table, and the child rows returned for
a given parent id at each deeper level. -/
structure DB where
  gubernias : List Row
  uezds : Nat → List Row
  localities : Nat → List Row
  churches : Nat → List Row

/-- A filesystem effect of the run: `os.makedirs(p, exist_ok=True)`
(from `make_dirs`) or writing `content` to file `p` (from `file_write`,
mode `w+`, which truncates and rewrites). -/
inductive Op where
  | mkdir (p : FsPath)
  | write (p : FsPath) (content : String)
deriving DecidableEq

/-- The output root `<cwd>/nsa/cfp` (`self.root_dir`), relative to the
working directory. -/
def rootSegs : FsPath := ["nsa", "cfp"]

/-- `format3`: prepend 3 white spaces (`'   %s' % name`). -/
def format3 (name : String) : String := "   " ++ name

/-- `self.tree_templ` after `textwrap.dedent`, with the `{title}` and
`{members}` slots substituted, exactly as `str.format` does. -/
def tree_templ (title members : String) : String :=
  "\n.. Tree RST template\n.. Autogenerated by cfp-sphinx.py\n\n"
    ++ title
    ++ "\n\n.. toctree::\n   :maxdepth: 2\n\n"
    ++ members ++ "\n"

/-- How Python's `str.format` renders the `title` argument: the actual
string when one is given, and the literal string `None` when the Python
value `None` is passed (as `__gen_gubernias` does at the root). -/
def titleArg : Option String → String
  | none => "None"
  | some s => s

/-- The `_g_list` accumulator of `__gen_gubernias`:
`_g_list += self.format3(g_id) + '/index' + '\n'` over the fetched rows. -/
def gubMembers (rows : List Row) : String :=
  rows.foldl (fun acc r => acc ++ format3 (toString r.id) ++ "/index" ++ "\n") ""

/-- The `_u_list` accumulator of `__gen_uezds`:
`_u_list += self.format3(f'uezd/{u_id}/index\n')`. -/
def uezdMembers (rows : List Row) : String :=
  rows.foldl (fun acc r => acc ++ format3 ("uezd/" ++ toString r.id ++ "/index\n")) ""

/-- The `_l_list` accumulator of `__gen_localities`; note the source
writes the literal segment `uezd` here although the rows are localities:
`_l_list += self.format3(f'uezd/{l_id}/index\n')`. -/
def locMembers (rows : List Row) : String :=
  rows.foldl (fun acc r => acc ++ format3 ("uezd/" ++ toString r.id ++ "/index\n")) ""

/-- The `_ch_list` accumulator of `__gen_churches`; the source again
writes the literal segment `uezd` although the rows are churches:
`_ch_list += self.format3(f'uezd/{ch_id}/index\n')`. -/
def churchMembers (rows : List Row) : String :=
  rows.foldl (fun acc r => acc ++ format3 ("uezd/" ++ toString r.id ++ "/index\n")) ""

/-- `CfpSphinx.__gen_churches(l_id, l_name, pdir)`: for each church row
create `pdir/church/<ch_id>`, then write `pdir/index.rst` from the
template with title `l_name` and the accumulated member list.  No file
is written inside the church directories themselves. -/
def gen_churches (db : DB) (l_id : Nat) (l_name : String) (pdir : FsPath) : List Op :=
  ((db.churches l_id).map (fun ch => Op.mkdir (pdir ++ ["church", toString ch.id])))
    ++ [Op.write (pdir ++ ["index.rst"])
          (tree_templ l_name (churchMembers (db.churches l_id)))]

/-- `CfpSphinx.__gen_localities(u_id, u_name, pdir)`: for each locality
row create `pdir/locality/<l_id>`, recurse into `__gen_churches`, then
write `pdir/index.rst` with title `u_name`. -/
def gen_localities (db : DB) (u_id : Nat) (u_name : String) (pdir : FsPath) : List Op :=
  ((db.localities u_id).flatMap (fun l =>
      Op.mkdir (pdir ++ ["locality", toString l.id])
        :: gen_churches db l.id l.name (pdir ++ ["locality", toString l.id])))
    ++ [Op.write (pdir ++ ["index.rst"])
          (tree_templ u_name (locMembers (db.localities u_id)))]

/-- `CfpSphinx.__gen_uezds(g_id, g_name, pdir)`: for each uezd row
create `pdir/uezd/<u_id>`, recurse into `__gen_localities`, then write
`pdir/index.rst` with title `g_name`. -/
def gen_uezds (db : DB) (g_id : Nat) (g_name : String) (pdir : FsPath) : List Op :=
  ((db.uezds g_id).flatMap (fun u =>
      Op.mkdir (pdir ++ ["uezd", toString u.id])
        :: gen_localities db u.id u.name (pdir ++ ["uezd", toString u.id])))
    ++ [Op.write (pdir ++ ["index.rst"])
          (tree_templ g_name (uezdMembers (db.uezds g_id)))]

/-- `CfpSphinx.__gen_gubernias(root_dir)`: for each gubernia row create
`root_dir/gubernia/<g_id>`, recurse into `__gen_uezds`, then write
`root_dir/gubernia/index.rst` with the Python value `None` in the title
slot (rendered as the string `None` by `str.format`). -/
def gen_gubernias (db : DB) (root_dir : FsPath) : List Op :=
  (db.gubernias.flatMap (fun g =>
      Op.mkdir (root_dir ++ ["gubernia", toString g.id])
        :: gen_uezds db g.id g.name (root_dir ++ ["gubernia", toString g.id])))
    ++ [Op.write (root_dir ++ ["gubernia", "index.rst"])
          (tree_templ (titleArg none) (gubMembers db.gubernias))]

/-- `CfpSphinx.generate()`: `make_dirs(self.root_dir)` followed by
`__gen_gubernias(self.root_dir)`. -/
def generateOps (db : DB) : List Op :=
  Op.mkdir rootSegs :: gen_gubernias db rootSegs

/-- The targets of the `make_dirs` calls a run performs, in order. -/
def mkdirTargets (ops : List Op) : List FsPath :=
  ops.filterMap (fun op =>
    match op with
    | Op.mkdir p => some p
    | Op.write _ _ => none)

/-- The `(path, content)` pairs of the index-file writes a run
performs, in order. -/
def writesOf (ops : List Op) : List (FsPath × String) :=
  ops.filterMap (fun op =>
    match op with
    | Op.mkdir _ => none
    | Op.write p c => some (p, c))

/-- The path of the operation's target. -/
def opPath : Op → FsPath
  | Op.mkdir p => p
  | Op.write p _ => p

/-- A filesystem state: which directories exist, and each file's
content.  `os.makedirs` marks the target and all its ancestors as
existing; a write replaces the file's content. -/
@[ext]
structure FS where
  dirs : FsPath → Bool
  files : FsPath → Option String

/-- One step of the run's effect on the filesystem, when the operation
succeeds: `os.makedirs(p, exist_ok=True)` creates `p` and every missing
ancestor (and is a no-op on the ones that exist); `file_write` opens the
file with mode `w+`, truncating it, and writes the full content. -/
def applyOp : Op → FS → FS
  | Op.mkdir p, s => ⟨fun q => q.isPrefixOf p || s.dirs q, s.files⟩
  | Op.write p c, s => ⟨s.dirs, fun q => if q = p then some c else s.files q⟩

/-- Run a list of operations left to right, all of them succeeding. -/
def applyOps : List Op → FS → FS
  | [], s => s
  | op :: t, s => applyOps t (applyOp op s)

/-- Whether some `mkdir` in `ops` creates directory `q` (as the target
or an ancestor of the target). -/
def dirMark (ops : List Op) (q : FsPath) : Bool :=
  ops.any (fun op =>
    match op with
    | Op.mkdir p => q.isPrefixOf p
    | Op.write _ _ => false)

/-- The content of the last write to `q` in `ops`, if any. -/
def lastW : List Op → FsPath → Option String
  | [], _ => none
  | op :: t, q =>
    match lastW t q with
    | some c => some c
    | none =>
      match op with
      | Op.write p c => if q = p then some c else none
      | Op.mkdir _ => none

/-- Overlay: the first component wins when present. -/
def ov : Option String → Option String → Option String
  | some c, _ => some c
  | none, x => x

/-- The outcome of a run in which operations may fail: the filesystem
state reached, the process exit status, and the diagnostic printed on
failure (if any). -/
structure RunRes where
  fs : FS
  exitCode : Nat
  diag : Option String

/-- The diagnostic printed when an OS error with message `m` hits `op`:
`make_dirs` catches `OSError`, prints `Could not create directory: {e}`
and calls `sys.exit(1)`; `file_write` has no handler, so the `OSError`
escapes `generate()` and the Python interpreter prints the traceback —
which carries the error message — and exits with status 1. -/
def diagFor : Op → String → String
  | Op.mkdir _, m => "Could not create directory: " ++ m
  | Op.write _ _, m => m

/-- Run the operations with a failure oracle `err` giving the OS error
message, if any, that each operation would raise: the run stops at the
first failing operation with exit status 1 and a printed diagnostic,
leaving the effects of the earlier operations in place. -/
def applyOpsE (err : Op → Option String) : List Op → FS → RunRes
  | [], s => ⟨s, 0, none⟩
  | op :: t, s =>
    match err op with
    | some m => ⟨s, 1, some (diagFor op m)⟩
    | none => applyOpsE err t (applyOp op s)

/-- The observable outcome of the whole process: what it printed, its
exit status, and the filesystem operations it performed. -/
structure MainRes where
  printed : List String
  exitCode : Nat
  ops : List Op

/-- The process, as a function of the connection attempt's result.
`CfpSphinx.__init__` wraps `mariadb.connect` in a `try`: on
`mariadb.Error` it prints `Error connecting to MariaDB Platform: {e}`
and calls `sys.exit(1)` — before `self.root_dir` is even assigned and
before any filesystem call.  On success `main()` calls `generate()`,
whose filesystem effects are `generateOps`.  The per-gubernia progress
lines printed on success are not modelled (no claim concerns them). -/
def cfpMain : Except String DB → MainRes
  | Except.error e => ⟨["Error connecting to MariaDB Platform: " ++ e], 1, []⟩
  | Except.ok db => ⟨[], 0, generateOps db⟩

/-- The SQL statement texts the run sends to the cursor, in execution
order (parameters are bound separately by the connector, so the text
keeps its `?` placeholder). -/
def issuedStatements (db : DB) : List String :=
  "SELECT id, name FROM cfp_gubernia"
    :: db.gubernias.flatMap (fun g =>
      "SELECT id, name FROM cfp_uezd WHERE gub_id=?"
        :: (db.uezds g.id).flatMap (fun u =>
          "SELECT id, name FROM cfp_locality WHERE uezd_id=?"
            :: (db.localities u.id).map (fun _ =>
              "SELECT id, name FROM cfp_church WHERE locality_id=?")))

/-- A statement is a read-only `SELECT` iff its text begins with the
`SELECT` keyword; checked on the underlying character list. -/
def isSelect (s : String) : Bool := (("SELECT").data).isPrefixOf s.data

/-- A failure oracle under which every `os.makedirs` call raises. -/
def failAllMkdirs : Op → Option String := fun op =>
  match op with
  | Op.mkdir _ => some "Permission denied"
  | Op.write _ _ => none

/-- A database whose gubernia table is empty. -/
def emptyDB : DB := ⟨[], fun _ => [], fun _ => [], fun _ => []⟩

/-- The empty filesystem state. -/
def emptyFS : FS := ⟨fun _ => false, fun _ => none⟩

/-- One child-link line of an index document: three spaces of indent,
an optional kind segment `pfx`, the child's id, then `/index` and a
newline. -/
def linkLine (pfx : String) (i : Nat) : String :=
  "   " ++ pfx ++ toString i ++ "/index" ++ "\n"

/-- The members block formed by one link line per child id. -/
def membersFrom (pfx : String) : List Nat → String
  | [] => ""
  | i :: t => linkLine pfx i ++ membersFrom pfx t

/-- Split a character list at newlines. -/
def splitNl : List Char → List Char → List String
  | [], acc => [String.mk acc.reverse]
  | ch :: t, acc =>
    if ch = '\n' then String.mk acc.reverse :: splitNl t []
    else splitNl t (ch :: acc)

/-- The lines of a document (split at newline characters). -/
def linesOf (c : String) : List String := splitNl c.data []

/-- The title line of a document produced by `tree_templ`: the template
puts the title on the fifth line (index 4), after the leading blank
line, the two comment lines and another blank line. -/
def titleOf (c : String) : Option String := (linesOf c).get? 4

/-- Example dataset: one gubernia (1), one uezd (10), one locality (5),
one church (7). -/
def exDb : DB where
  gubernias := [⟨1, "Oblast"⟩]
  uezds := fun i => if i = 1 then [⟨10, "Rayon"⟩] else []
  localities := fun i => if i = 10 then [⟨5, "Selo"⟩] else []
  churches := fun i => if i = 5 then [⟨7, "Pokrova"⟩] else []

/-- Example dataset of the round-trip scenario: one gubernia
(id 1, "Oblast") and one uezd (id 10, "Rayon"), nothing deeper. -/
def exDb4 : DB where
  gubernias := [⟨1, "Oblast"⟩]
  uezds := fun i => if i = 1 then [⟨10, "Rayon"⟩] else []
  localities := fun _ => []
  churches := fun _ => []

/-- A dataset with one gubernia and nothing below it. -/
def exDbA : DB := ⟨[⟨1, "A"⟩], fun _ => [], fun _ => [], fun _ => []⟩

/-- The same observable dataset as `exDbA`, differing only in the rows
the uezd query would return for the never-queried parent id 2. -/
def exDbB : DB := ⟨[⟨1, "A"⟩], fun i => if i = 2 then [⟨9, "X"⟩] else [],
  fun _ => [], fun _ => []⟩

/-- Decidable check that `p` is the directory of an immediate child of
kind `kind` under the parent node directory `parent`: exactly one
segment below `parent ++ [kind]`. -/
def isChildDir (parent : FsPath) (kind : String) (p : FsPath) : Bool :=
  decide (p.length = parent.length + 2 ∧
    p.take (parent.length + 1) = parent ++ [kind])

/-- How many `make_dirs` calls of the run target the directory of an
immediate child of kind `kind` under the parent directory `parent`. -/
def childDirCount (db : DB) (parent : FsPath) (kind : String) : Nat :=
  (mkdirTargets (generateOps db)).countP (isChildDir parent kind)

/-- The directory the run creates for gubernia `g`. -/
def gubDirP (g : Row) : FsPath := ["nsa", "cfp", "gubernia", toString g.id]

/-- The directory the run creates for uezd `u` of gubernia `g`. -/
def uezdDirP (g u : Row) : FsPath :=
  ["nsa", "cfp", "gubernia", toString g.id, "uezd", toString u.id]

/-- The directory the run creates for locality `l` of uezd `u`. -/
def locDirP (g u l : Row) : FsPath :=
  ["nsa", "cfp", "gubernia", toString g.id, "uezd", toString u.id,
    "locality", toString l.id]

/-- The directory the run creates for church `ch` of locality `l`. -/
def chDirP (g u l ch : Row) : FsPath :=
  ["nsa", "cfp", "gubernia", toString g.id, "uezd", toString u.id,
    "locality", toString l.id, "church", toString ch.id]

/-- The `make_dirs` targets issued inside uezd `u` of gubernia `g`
(locality and church directories). -/
def locSub (db : DB) (g u : Row) : List FsPath :=
  (db.localities u.id).flatMap (fun l =>
    locDirP g u l :: (db.churches l.id).map (fun ch => chDirP g u l ch))

/-- The `make_dirs` targets issued inside gubernia `g` below its own
directory (uezd, locality and church directories). -/
def uezdSub (db : DB) (g : Row) : List FsPath :=
  (db.uezds g.id).flatMap (fun u => uezdDirP g u :: locSub db g u)

theorem applyOps_dirs (ops : List Op) : ∀ (s : FS) (q : FsPath),
    (applyOps ops s).dirs q = (dirMark ops q || s.dirs q) := by
  induction ops with
  | nil => intro s q; simp [applyOps, dirMark]
  | cons op t ih =>
    intro s q
    cases op with
    | mkdir p =>
      rw [applyOps, ih]
      simp only [dirMark, List.any_cons, applyOp]
      cases hq : q.isPrefixOf p <;> cases dirMark t q <;> simp [dirMark]
    | write p c =>
      rw [applyOps, ih]
      simp [dirMark, List.any_cons, applyOp]

theorem applyOps_files (ops : List Op) : ∀ (s : FS) (q : FsPath),
    (applyOps ops s).files q = ov (lastW ops q) (s.files q) := by
  induction ops with
  | nil => intro s q; simp [applyOps, lastW, ov]
  | cons op t ih =>
    intro s q
    cases op with
    | mkdir p =>
      rw [applyOps, ih]
      simp only [lastW]
      cases h : lastW t q <;> simp [applyOp, ov]
    | write p c =>
      rw [applyOps, ih]
      simp only [lastW]
      cases h : lastW t q with
      | some d => simp [ov]
      | none =>
        simp only [ov, applyOp]
        by_cases hqp : q = p <;> simp [hqp, ov]

theorem applyOps_idem (ops : List Op) (s : FS) :
    applyOps ops (applyOps ops s) = applyOps ops s := by
  ext q
  · rw [applyOps_dirs, applyOps_dirs]
    cases dirMark ops q <;> simp
  · rw [applyOps_files, applyOps_files]
    cases h : lastW ops q <;> simp [ov]

/-- C5: running `generate()` a second time against unchanged query
results, starting from the tree the first run left behind, leaves the
filesystem exactly as the first run did: every `make_dirs` target
already exists (`exist_ok=True` makes that a no-op) and every index
file is rewritten, via mode `w+`, with byte-identical content. -/
theorem c5_generate_idempotent (db : DB) (s : FS) :
    applyOps (generateOps db) (applyOps (generateOps db) s) =
      applyOps (generateOps db) s :=
  applyOps_idem (generateOps db) s

/-- C7: if the connection attempt fails, the process prints the
underlying cause, exits with status 1, and performs no filesystem
operation at all, so any starting filesystem state is left untouched. -/
theorem c7_connect_failure (e : String) (s : FS) :
    (cfpMain (Except.error e)).exitCode = 1 ∧
      (cfpMain (Except.error e)).printed =
        ["Error connecting to MariaDB Platform: " ++ e] ∧
      (cfpMain (Except.error e)).ops = [] ∧
      applyOps (cfpMain (Except.error e)).ops s = s :=
  ⟨rfl, rfl, rfl, rfl⟩

theorem applyOpsE_aborts (err : Op → Option String) :
    ∀ (ops : List Op) (s : FS), (∃ op ∈ ops, (err op).isSome = true) →
      (applyOpsE err ops s).exitCode = 1 ∧
        (applyOpsE err ops s).diag.isSome = true ∧
        (applyOpsE err ops s).fs =
          applyOps (ops.takeWhile (fun op => (err op).isNone)) s := by
  intro ops
  induction ops with
  | nil => intro s h; simp at h
  | cons op t ih =>
    intro s h
    cases herr : err op with
    | some m =>
      refine ⟨?_, ?_, ?_⟩ <;>
        simp [applyOpsE, herr, List.takeWhile_cons, Option.isNone_iff_eq_none, applyOps]
    | none =>
      have ht : ∃ o ∈ t, (err o).isSome = true := by
        rcases h with ⟨o, ho, hs⟩
        rcases List.mem_cons.mp ho with rfl | hmem
        · rw [herr] at hs; simp at hs
        · exact ⟨o, hmem, hs⟩
      obtain ⟨h1, h2, h3⟩ := ih (applyOp op s) ht
      refine ⟨?_, ?_, ?_⟩
      · simpa [applyOpsE, herr] using h1
      · simpa [applyOpsE, herr] using h2
      · simpa [applyOpsE, herr, List.takeWhile_cons, Option.isNone_iff_eq_none,
          applyOps] using h3

/-- C8: every filesystem failure aborts the run at the point of
occurrence: the first operation of the run that raises an `OSError`
leaves exit status 1 and a printed diagnostic (an explicit
`Could not create directory` message for `make_dirs`, the interpreter
traceback for the unhandled exception in `file_write`), and only the
operations before the failing one have taken effect. -/
theorem c8_fs_failure_aborts (err : Op → Option String) (db : DB) (s : FS)
    (h : ∃ op ∈ generateOps db, (err op).isSome = true) :
    (applyOpsE err (generateOps db) s).exitCode = 1 ∧
      (applyOpsE err (generateOps db) s).diag.isSome = true ∧
      (applyOpsE err (generateOps db) s).fs =
        applyOps ((generateOps db).takeWhile (fun op => (err op).isNone)) s :=
  applyOpsE_aborts err (generateOps db) s h

theorem c8_fs_failure_aborts_witness :
    (∃ op ∈ generateOps emptyDB, (failAllMkdirs op).isSome = true) ∧
      ((applyOpsE failAllMkdirs (generateOps emptyDB) emptyFS).exitCode = 1 ∧
        (applyOpsE failAllMkdirs (generateOps emptyDB) emptyFS).diag.isSome = true ∧
        (applyOpsE failAllMkdirs (generateOps emptyDB) emptyFS).fs =
          applyOps ((generateOps emptyDB).takeWhile
            (fun op => (failAllMkdirs op).isNone)) emptyFS) :=
  ⟨by decide, c8_fs_failure_aborts failAllMkdirs emptyDB emptyFS (by decide)⟩

theorem gubMembers_acc (rows : List Row) : ∀ (acc : String),
    rows.foldl (fun a r => a ++ format3 (toString r.id) ++ "/index" ++ "\n") acc
      = acc ++ membersFrom ("") (rows.map Row.id) := by
  induction rows with
  | nil => intro acc; simp [membersFrom]
  | cons r t ih =>
    intro acc
    rw [List.foldl_cons, ih]
    simp [membersFrom, linkLine, format3, String.append_assoc]

theorem gubMembers_eq (rows : List Row) :
    gubMembers rows = membersFrom ("") (rows.map Row.id) := by
  have := gubMembers_acc rows ""
  simpa [gubMembers] using this

theorem uezdMembers_acc (rows : List Row) : ∀ (acc : String),
    rows.foldl (fun a r => a ++ format3 ("uezd/" ++ toString r.id ++ "/index\n")) acc
      = acc ++ membersFrom ("uezd/") (rows.map Row.id) := by
  induction rows with
  | nil => intro acc; simp [membersFrom]
  | cons r t ih =>
    intro acc
    rw [List.foldl_cons, ih]
    simp only [membersFrom, linkLine, format3, List.map_cons]
    rw [show ("/index\n" : String) = "/index" ++ "\n" from rfl]
    simp only [String.append_assoc]

theorem uezdMembers_eq (rows : List Row) :
    uezdMembers rows = membersFrom ("uezd/") (rows.map Row.id) := by
  have := uezdMembers_acc rows ""
  simpa [uezdMembers] using this

theorem locMembers_eq (rows : List Row) :
    locMembers rows = membersFrom ("uezd/") (rows.map Row.id) :=
  uezdMembers_eq rows

theorem churchMembers_eq (rows : List Row) :
    churchMembers rows = membersFrom ("uezd/") (rows.map Row.id) :=
  uezdMembers_eq rows

theorem filterMap_flatMapL {α β γ : Type} (l : List α) (f : α → List β) (g : β → Option γ) :
    (l.flatMap f).filterMap g = l.flatMap (fun x => (f x).filterMap g) := by
  induction l with
  | nil => simp
  | cons a t ih => simp [List.flatMap_cons, List.filterMap_append, ih]

theorem flatMap_single {α β : Type} (l : List α) (g : α → β) :
    (l.flatMap fun x => [g x]) = l.map g := by
  induction l with
  | nil => simp
  | cons a t ih => simp [List.flatMap_cons, ih]

theorem writesOf_cons_mkdir (p : FsPath) (t : List Op) :
    writesOf (Op.mkdir p :: t) = writesOf t := by
  simp [writesOf]

theorem writesOf_append (a b : List Op) :
    writesOf (a ++ b) = writesOf a ++ writesOf b :=
  List.filterMap_append a b _

theorem writesOf_flatMap {α : Type} (l : List α) (f : α → List Op) :
    writesOf (l.flatMap f) = l.flatMap (fun x => writesOf (f x)) :=
  filterMap_flatMapL l f _

theorem mkdirTargets_cons_mkdir (p : FsPath) (t : List Op) :
    mkdirTargets (Op.mkdir p :: t) = p :: mkdirTargets t := by
  simp [mkdirTargets]

theorem mkdirTargets_append (a b : List Op) :
    mkdirTargets (a ++ b) = mkdirTargets a ++ mkdirTargets b :=
  List.filterMap_append a b _

theorem mkdirTargets_flatMap {α : Type} (l : List α) (f : α → List Op) :
    mkdirTargets (l.flatMap f) = l.flatMap (fun x => mkdirTargets (f x)) :=
  filterMap_flatMapL l f _

theorem writes_churches (db : DB) (lid : Nat) (lname : String) (pdir : FsPath) :
    writesOf (gen_churches db lid lname pdir) =
      [(pdir ++ ["index.rst"], tree_templ lname (churchMembers (db.churches lid)))] := by
  simp [gen_churches, writesOf, List.filterMap_append, List.filterMap_map, Function.comp]

theorem writes_localities (db : DB) (uid : Nat) (uname : String) (pdir : FsPath) :
    writesOf (gen_localities db uid uname pdir) =
      (db.localities uid).map (fun l =>
        (pdir ++ ["locality", toString l.id, "index.rst"],
          tree_templ l.name (churchMembers (db.churches l.id))))
      ++ [(pdir ++ ["index.rst"], tree_templ uname (locMembers (db.localities uid)))] := by
  rw [gen_localities, writesOf_append, writesOf_flatMap]
  congr 1
  have h : ∀ l ∈ db.localities uid,
      writesOf (Op.mkdir (pdir ++ ["locality", toString l.id])
          :: gen_churches db l.id l.name (pdir ++ ["locality", toString l.id]))
        = [(pdir ++ ["locality", toString l.id, "index.rst"],
             tree_templ l.name (churchMembers (db.churches l.id)))] := by
    intro l _
    rw [writesOf_cons_mkdir, writes_churches]
    simp
  rw [List.flatMap_congr h, flatMap_single]

theorem writes_uezds (db : DB) (gid : Nat) (gname : String) (pdir : FsPath) :
    writesOf (gen_uezds db gid gname pdir) =
      (db.uezds gid).flatMap (fun u =>
        (db.localities u.id).map (fun l =>
          (pdir ++ ["uezd", toString u.id, "locality", toString l.id, "index.rst"],
            tree_templ l.name (churchMembers (db.churches l.id))))
        ++ [(pdir ++ ["uezd", toString u.id, "index.rst"],
              tree_templ u.name (locMembers (db.localities u.id)))])
      ++ [(pdir ++ ["index.rst"], tree_templ gname (uezdMembers (db.uezds gid)))] := by
  rw [gen_uezds, writesOf_append, writesOf_flatMap]
  congr 1
  apply List.flatMap_congr
  intro u _
  rw [writesOf_cons_mkdir, writes_localities]
  simp

theorem writes_generate (db : DB) :
    writesOf (generateOps db) =
      db.gubernias.flatMap (fun g =>
        (db.uezds g.id).flatMap (fun u =>
          (db.localities u.id).map (fun l =>
            (["nsa", "cfp", "gubernia", toString g.id, "uezd", toString u.id,
                "locality", toString l.id, "index.rst"],
              tree_templ l.name (churchMembers (db.churches l.id))))
          ++ [(["nsa", "cfp", "gubernia", toString g.id, "uezd", toString u.id,
                 "index.rst"],
                tree_templ u.name (locMembers (db.localities u.id)))])
        ++ [(["nsa", "cfp", "gubernia", toString g.id, "index.rst"],
              tree_templ g.name (uezdMembers (db.uezds g.id)))])
      ++ [(["nsa", "cfp", "gubernia", "index.rst"],
            tree_templ (titleArg none) (gubMembers db.gubernias))] := by
  rw [generateOps, writesOf_cons_mkdir, gen_gubernias, writesOf_append, writesOf_flatMap]
  congr 1
  apply List.flatMap_congr
  intro g _
  rw [writesOf_cons_mkdir, writes_uezds]
  simp [rootSegs]

theorem filterMap_someL {α β : Type} (l : List α) (g : α → β) :
    l.filterMap (fun x => some (g x)) = l.map g := by
  induction l <;> simp [List.filterMap_cons, *]

theorem targets_churches (db : DB) (lid : Nat) (lname : String) (pdir : FsPath) :
    mkdirTargets (gen_churches db lid lname pdir) =
      (db.churches lid).map (fun ch => pdir ++ ["church", toString ch.id]) := by
  simp [gen_churches, mkdirTargets, List.filterMap_append, List.filterMap_map,
    Function.comp_def, filterMap_someL]

theorem targets_localities (db : DB) (uid : Nat) (uname : String) (pdir : FsPath) :
    mkdirTargets (gen_localities db uid uname pdir) =
      (db.localities uid).flatMap (fun l =>
        (pdir ++ ["locality", toString l.id])
          :: (db.churches l.id).map (fun ch =>
              pdir ++ ["locality", toString l.id, "church", toString ch.id])) := by
  rw [gen_localities, mkdirTargets_append, mkdirTargets_flatMap]
  have h : ∀ l ∈ db.localities uid,
      mkdirTargets (Op.mkdir (pdir ++ ["locality", toString l.id])
          :: gen_churches db l.id l.name (pdir ++ ["locality", toString l.id]))
        = (pdir ++ ["locality", toString l.id])
            :: (db.churches l.id).map (fun ch =>
                pdir ++ ["locality", toString l.id, "church", toString ch.id]) := by
    intro l _
    rw [mkdirTargets_cons_mkdir, targets_churches]
    simp
  rw [List.flatMap_congr h]
  simp [mkdirTargets]

theorem targets_uezds (db : DB) (gid : Nat) (gname : String) (pdir : FsPath) :
    mkdirTargets (gen_uezds db gid gname pdir) =
      (db.uezds gid).flatMap (fun u =>
        (pdir ++ ["uezd", toString u.id])
          :: (db.localities u.id).flatMap (fun l =>
            (pdir ++ ["uezd", toString u.id, "locality", toString l.id])
              :: (db.churches l.id).map (fun ch =>
                  pdir ++ ["uezd", toString u.id, "locality", toString l.id,
                    "church", toString ch.id]))) := by
  rw [gen_uezds, mkdirTargets_append, mkdirTargets_flatMap]
  have h : ∀ u ∈ db.uezds gid,
      mkdirTargets (Op.mkdir (pdir ++ ["uezd", toString u.id])
          :: gen_localities db u.id u.name (pdir ++ ["uezd", toString u.id]))
        = (pdir ++ ["uezd", toString u.id])
            :: (db.localities u.id).flatMap (fun l =>
              (pdir ++ ["uezd", toString u.id, "locality", toString l.id])
                :: (db.churches l.id).map (fun ch =>
                    pdir ++ ["uezd", toString u.id, "locality", toString l.id,
                      "church", toString ch.id])) := by
    intro u _
    rw [mkdirTargets_cons_mkdir, targets_localities]
    simp
  rw [List.flatMap_congr h]
  simp [mkdirTargets]

theorem targets_generate (db : DB) :
    mkdirTargets (generateOps db) =
      ["nsa", "cfp"] :: db.gubernias.flatMap (fun g =>
        (["nsa", "cfp", "gubernia", toString g.id])
          :: (db.uezds g.id).flatMap (fun u =>
            (["nsa", "cfp", "gubernia", toString g.id, "uezd", toString u.id])
              :: (db.localities u.id).flatMap (fun l =>
                (["nsa", "cfp", "gubernia", toString g.id, "uezd", toString u.id,
                    "locality", toString l.id])
                  :: (db.churches l.id).map (fun ch =>
                      ["nsa", "cfp", "gubernia", toString g.id, "uezd", toString u.id,
                        "locality", toString l.id, "church", toString ch.id])))) := by
  rw [generateOps, mkdirTargets_cons_mkdir, gen_gubernias, mkdirTargets_append,
    mkdirTargets_flatMap]
  have h : ∀ g ∈ db.gubernias,
      mkdirTargets (Op.mkdir (rootSegs ++ ["gubernia", toString g.id])
          :: gen_uezds db g.id g.name (rootSegs ++ ["gubernia", toString g.id]))
        = (["nsa", "cfp", "gubernia", toString g.id])
            :: (db.uezds g.id).flatMap (fun u =>
              (["nsa", "cfp", "gubernia", toString g.id, "uezd", toString u.id])
                :: (db.localities u.id).flatMap (fun l =>
                  (["nsa", "cfp", "gubernia", toString g.id, "uezd", toString u.id,
                      "locality", toString l.id])
                    :: (db.churches l.id).map (fun ch =>
                        ["nsa", "cfp", "gubernia", toString g.id, "uezd", toString u.id,
                          "locality", toString l.id, "church", toString ch.id]))) := by
    intro g _
    rw [mkdirTargets_cons_mkdir, targets_uezds]
    simp [rootSegs]
  rw [List.flatMap_congr h]
  simp [mkdirTargets, rootSegs]

/-- C1 fails as stated: in the `exDb` run, the index document of uezd 10
links its locality child 5 with the fixed literal kind segment `uezd` —
its members block is the `uezd/`-prefixed link line, which differs from
the `locality/`-prefixed line the claim requires for a locality child. -/
theorem c1_counterexample :
    (writesOf (generateOps exDb)).lookup
        (["nsa", "cfp", "gubernia", "1", "uezd", "10", "index.rst"])
      = some (tree_templ ("Rayon") (membersFrom ("uezd/") [5])) ∧
      membersFrom ("uezd/") [5] ≠ membersFrom ("locality/") [5] :=
  ⟨by decide, by decide⟩

/-- C1 (amended): every child-link line of every generated index
document is 3-space-indented and of the form `<pfx><id>/index`, where
the prefix `pfx` is empty in the root-level document (whose links are
bare `<id>/index`) and is the fixed literal `uezd/` in every other
document — including the uezd- and locality-level documents, whose
children are localities resp. churches, not uezds. -/
theorem c1_link_lines_amended (db : DB) (p : FsPath) (c : String)
    (h : (p, c) ∈ writesOf (generateOps db)) :
    ∃ t ids,
      (p = ["nsa", "cfp", "gubernia", "index.rst"] ∧
        c = tree_templ t (membersFrom ("") ids)) ∨
      (p ≠ ["nsa", "cfp", "gubernia", "index.rst"] ∧
        c = tree_templ t (membersFrom ("uezd/") ids)) := by
  rw [writes_generate] at h
  simp only [List.mem_append, List.mem_flatMap, List.mem_singleton, List.mem_map] at h
  rcases h with ⟨g, hg, h⟩ | h
  · rcases h with ⟨u, hu, h⟩ | h
    · rcases h with ⟨l, hl, h⟩ | h
      · rcases Prod.mk.injEq .. ▸ h with ⟨rfl, rfl⟩
        refine ⟨l.name, (db.churches l.id).map Row.id, Or.inr ⟨by simp, ?_⟩⟩
        rw [churchMembers_eq]
      · rcases Prod.mk.injEq .. ▸ h with ⟨rfl, rfl⟩
        refine ⟨u.name, (db.localities u.id).map Row.id, Or.inr ⟨by simp, ?_⟩⟩
        rw [locMembers_eq]
    · rcases Prod.mk.injEq .. ▸ h with ⟨rfl, rfl⟩
      refine ⟨g.name, (db.uezds g.id).map Row.id, Or.inr ⟨by simp, ?_⟩⟩
      rw [uezdMembers_eq]
  · rcases Prod.mk.injEq .. ▸ h with ⟨rfl, rfl⟩
    refine ⟨titleArg none, db.gubernias.map Row.id, Or.inl ⟨rfl, ?_⟩⟩
    rw [gubMembers_eq]

theorem c1_link_lines_amended_witness :
    ((["nsa", "cfp", "gubernia", "index.rst"],
        tree_templ ("None") ("   1/index\n")) ∈ writesOf (generateOps exDb4)) ∧
      (∃ t ids,
        ((["nsa", "cfp", "gubernia", "index.rst"] : FsPath)
            = ["nsa", "cfp", "gubernia", "index.rst"] ∧
          tree_templ ("None") ("   1/index\n") = tree_templ t (membersFrom ("") ids)) ∨
        ((["nsa", "cfp", "gubernia", "index.rst"] : FsPath)
            ≠ ["nsa", "cfp", "gubernia", "index.rst"] ∧
          tree_templ ("None") ("   1/index\n") = tree_templ t (membersFrom ("uezd/") ids))) :=
  ⟨by decide, c1_link_lines_amended exDb4 _ _ (by decide)⟩

/-- C2 fails on the code (and the claim matches the source's own layout
comment, which lists `church/<id>/index.rst`): in the `exDb` run the
church directory `.../church/7` is created, but no index document is
ever written inside it — `__gen_churches` writes only the locality's
index and never recurses into the church directories. -/
theorem c2_no_church_index :
    ((mkdirTargets (generateOps exDb)).contains
        (["nsa", "cfp", "gubernia", "1", "uezd", "10", "locality", "5",
          "church", "7"]) = true) ∧
      (((writesOf (generateOps exDb)).map Prod.fst).contains
        (["nsa", "cfp", "gubernia", "1", "uezd", "10", "locality", "5",
          "church", "7", "index.rst"]) = false) :=
  ⟨by decide, by decide⟩

/-- C3 fails as stated: the title line (line index 4) of the root index
document of the `exDb4` run is the literal string `None` — Python's
`str.format` rendering of the value `None` — not the empty string. -/
theorem c3_counterexample :
    (writesOf (generateOps exDb4)).lookup (["nsa", "cfp", "gubernia", "index.rst"])
        = some (tree_templ ("None") ("   1/index\n")) ∧
      titleOf (tree_templ ("None") ("   1/index\n")) = some ("None") ∧
      ("None" : String) ≠ ("") :=
  ⟨by decide, by decide, by decide⟩

/-- C3 (amended): the title slot of the index document at the very root
of the generated tree is filled with the literal string `None` (the
`str.format` rendering of the Python value `None`), not the empty
string; the title of every other index document is the display name of
the node whose directory contains it (the gubernia's name in
`gubernia/<id>/index.rst`, the uezd's in `.../uezd/<id>/index.rst`, the
locality's in `.../locality/<id>/index.rst`). -/
theorem c3_titles_amended (db : DB) (p : FsPath) (c : String)
    (h : (p, c) ∈ writesOf (generateOps db)) :
    (p = ["nsa", "cfp", "gubernia", "index.rst"] ∧
       c = tree_templ ("None") (gubMembers db.gubernias)) ∨
    (∃ g ∈ db.gubernias,
       p = ["nsa", "cfp", "gubernia", toString g.id, "index.rst"] ∧
       c = tree_templ g.name (uezdMembers (db.uezds g.id))) ∨
    (∃ g ∈ db.gubernias, ∃ u ∈ db.uezds g.id,
       p = ["nsa", "cfp", "gubernia", toString g.id, "uezd", toString u.id,
         "index.rst"] ∧
       c = tree_templ u.name (locMembers (db.localities u.id))) ∨
    (∃ g ∈ db.gubernias, ∃ u ∈ db.uezds g.id, ∃ l ∈ db.localities u.id,
       p = ["nsa", "cfp", "gubernia", toString g.id, "uezd", toString u.id,
         "locality", toString l.id, "index.rst"] ∧
       c = tree_templ l.name (churchMembers (db.churches l.id))) := by
  rw [writes_generate] at h
  simp only [List.mem_append, List.mem_flatMap, List.mem_singleton, List.mem_map] at h
  rcases h with ⟨g, hg, h⟩ | h
  · rcases h with ⟨u, hu, h⟩ | h
    · rcases h with ⟨l, hl, h⟩ | h
      · rcases Prod.mk.injEq .. ▸ h with ⟨rfl, rfl⟩
        exact Or.inr (Or.inr (Or.inr ⟨g, hg, u, hu, l, hl, rfl, rfl⟩))
      · rcases Prod.mk.injEq .. ▸ h with ⟨rfl, rfl⟩
        exact Or.inr (Or.inr (Or.inl ⟨g, hg, u, hu, rfl, rfl⟩))
    · rcases Prod.mk.injEq .. ▸ h with ⟨rfl, rfl⟩
      exact Or.inr (Or.inl ⟨g, hg, rfl, rfl⟩)
  · rcases Prod.mk.injEq .. ▸ h with ⟨rfl, rfl⟩
    exact Or.inl ⟨rfl, rfl⟩

theorem c3_titles_amended_witness :
    ((["nsa", "cfp", "gubernia", "1", "index.rst"],
        tree_templ ("Oblast") ("   uezd/10/index\n")) ∈ writesOf (generateOps exDb4)) ∧
      (((["nsa", "cfp", "gubernia", "1", "index.rst"] : FsPath)
          = ["nsa", "cfp", "gubernia", "index.rst"] ∧
         tree_templ ("Oblast") ("   uezd/10/index\n")
           = tree_templ ("None") (gubMembers exDb4.gubernias)) ∨
       (∃ g ∈ exDb4.gubernias,
         (["nsa", "cfp", "gubernia", "1", "index.rst"] : FsPath)
           = ["nsa", "cfp", "gubernia", toString g.id, "index.rst"] ∧
         tree_templ ("Oblast") ("   uezd/10/index\n")
           = tree_templ g.name (uezdMembers (exDb4.uezds g.id))) ∨
       (∃ g ∈ exDb4.gubernias, ∃ u ∈ exDb4.uezds g.id,
         (["nsa", "cfp", "gubernia", "1", "index.rst"] : FsPath)
           = ["nsa", "cfp", "gubernia", toString g.id, "uezd", toString u.id,
             "index.rst"] ∧
         tree_templ ("Oblast") ("   uezd/10/index\n")
           = tree_templ u.name (locMembers (exDb4.localities u.id))) ∨
       (∃ g ∈ exDb4.gubernias, ∃ u ∈ exDb4.uezds g.id, ∃ l ∈ exDb4.localities u.id,
         (["nsa", "cfp", "gubernia", "1", "index.rst"] : FsPath)
           = ["nsa", "cfp", "gubernia", toString g.id, "uezd", toString u.id,
             "locality", toString l.id, "index.rst"] ∧
         tree_templ ("Oblast") ("   uezd/10/index\n")
           = tree_templ l.name (churchMembers (exDb4.churches l.id)))) :=
  ⟨by decide, c3_titles_amended exDb4 _ _ (by decide)⟩

/-- C4: in the round-trip run (gubernia 1 "Oblast" with uezd 10 "Rayon"
and nothing deeper) the root-level index document — written at
`gubernia/index.rst` under the output root — contains the link line
`   1/index`, and the index file of the gubernia-1 directory exists
(is written) and contains the link line `   uezd/10/index`. -/
theorem c4_round_trip :
    (writesOf (generateOps exDb4)).lookup (["nsa", "cfp", "gubernia", "index.rst"])
        = some (tree_templ ("None") ("   1/index\n")) ∧
      ((linesOf (tree_templ ("None") ("   1/index\n"))).contains
        ("   1/index") = true) ∧
      (writesOf (generateOps exDb4)).lookup
          (["nsa", "cfp", "gubernia", "1", "index.rst"])
        = some (tree_templ ("Oblast") ("   uezd/10/index\n")) ∧
      ((linesOf (tree_templ ("Oblast") ("   uezd/10/index\n"))).contains
        ("   uezd/10/index") = true) :=
  ⟨by decide, by decide, by decide, by decide⟩

theorem opPath_churches (db : DB) (lid : Nat) (lname : String) (pdir : FsPath) :
    ∀ op ∈ gen_churches db lid lname pdir, ∃ rest, opPath op = pdir ++ rest := by
  intro op hop
  simp only [gen_churches, List.mem_append, List.mem_map, List.mem_singleton] at hop
  rcases hop with ⟨ch, _, rfl⟩ | rfl
  · exact ⟨["church", toString ch.id], rfl⟩
  · exact ⟨["index.rst"], rfl⟩

theorem opPath_localities (db : DB) (uid : Nat) (uname : String) (pdir : FsPath) :
    ∀ op ∈ gen_localities db uid uname pdir, ∃ rest, opPath op = pdir ++ rest := by
  intro op hop
  simp only [gen_localities, List.mem_append, List.mem_flatMap, List.mem_cons,
    List.mem_singleton, List.not_mem_nil, or_false] at hop
  rcases hop with ⟨l, _, rfl | hin⟩ | rfl
  · exact ⟨["locality", toString l.id], rfl⟩
  · obtain ⟨rest, hrest⟩ := opPath_churches db l.id l.name _ op hin
    exact ⟨["locality", toString l.id] ++ rest, by rw [hrest, List.append_assoc]⟩
  · exact ⟨["index.rst"], rfl⟩

theorem opPath_uezds (db : DB) (gid : Nat) (gname : String) (pdir : FsPath) :
    ∀ op ∈ gen_uezds db gid gname pdir, ∃ rest, opPath op = pdir ++ rest := by
  intro op hop
  simp only [gen_uezds, List.mem_append, List.mem_flatMap, List.mem_cons,
    List.mem_singleton, List.not_mem_nil, or_false] at hop
  rcases hop with ⟨u, _, rfl | hin⟩ | rfl
  · exact ⟨["uezd", toString u.id], rfl⟩
  · obtain ⟨rest, hrest⟩ := opPath_localities db u.id u.name _ op hin
    exact ⟨["uezd", toString u.id] ++ rest, by rw [hrest, List.append_assoc]⟩
  · exact ⟨["index.rst"], rfl⟩

theorem opPath_generate (db : DB) :
    ∀ op ∈ generateOps db, ∃ rest, opPath op = rootSegs ++ rest := by
  intro op hop
  simp only [generateOps, gen_gubernias, List.mem_cons, List.mem_append,
    List.mem_flatMap, List.mem_singleton, List.not_mem_nil, or_false] at hop
  rcases hop with rfl | ⟨g, _, rfl | hin⟩ | rfl
  · exact ⟨[], by simp [opPath]⟩
  · exact ⟨["gubernia", toString g.id], rfl⟩
  · obtain ⟨rest, hrest⟩ := opPath_uezds db g.id g.name _ op hin
    exact ⟨["gubernia", toString g.id] ++ rest, by rw [hrest, List.append_assoc]⟩
  · exact ⟨["gubernia", "index.rst"], rfl⟩

/-- C9: every statement the run sends to the database is a read-only
`SELECT`, and every filesystem operation the run performs targets a
path under the output root `nsa/cfp`: the run reads the source records
and writes only derived artifacts below the output root. -/
theorem c9_read_only (db : DB) :
    ((issuedStatements db).all isSelect = true) ∧
      ((generateOps db).all
        (fun op => decide ((opPath op).take 2 = rootSegs)) = true) := by
  constructor
  · rw [List.all_eq_true]
    intro q hq
    simp only [issuedStatements, List.mem_cons, List.mem_flatMap, List.mem_map] at hq
    rcases hq with rfl | ⟨g, _, hq⟩
    · decide
    rcases hq with rfl | ⟨u, _, hq⟩
    · decide
    rcases hq with rfl | ⟨l, _, rfl⟩
    · decide
    · decide
  · rw [List.all_eq_true]
    intro op hop
    obtain ⟨rest, hrest⟩ := opPath_generate db op hop
    rw [hrest]
    simp [rootSegs]

theorem gen_churches_congr (db₁ db₂ : DB) (lid : Nat) (lname : String) (pdir : FsPath)
    (hc : db₁.churches lid = db₂.churches lid) :
    gen_churches db₁ lid lname pdir = gen_churches db₂ lid lname pdir := by
  simp [gen_churches, hc]

theorem gen_localities_congr (db₁ db₂ : DB) (uid : Nat) (uname : String) (pdir : FsPath)
    (hl : db₁.localities uid = db₂.localities uid)
    (hc : ∀ l ∈ db₁.localities uid, db₁.churches l.id = db₂.churches l.id) :
    gen_localities db₁ uid uname pdir = gen_localities db₂ uid uname pdir := by
  rw [gen_localities, gen_localities, hl]
  congr 1
  apply List.flatMap_congr
  intro l hl'
  rw [gen_churches_congr db₁ db₂ l.id l.name _ (hc l (hl.symm ▸ hl'))]

theorem gen_uezds_congr (db₁ db₂ : DB) (gid : Nat) (gname : String) (pdir : FsPath)
    (hu : db₁.uezds gid = db₂.uezds gid)
    (hl : ∀ u ∈ db₁.uezds gid, db₁.localities u.id = db₂.localities u.id)
    (hc : ∀ u ∈ db₁.uezds gid, ∀ l ∈ db₁.localities u.id,
        db₁.churches l.id = db₂.churches l.id) :
    gen_uezds db₁ gid gname pdir = gen_uezds db₂ gid gname pdir := by
  rw [gen_uezds, gen_uezds, hu]
  congr 1
  apply List.flatMap_congr
  intro u hu'
  have hum : u ∈ db₁.uezds gid := hu.symm ▸ hu'
  rw [gen_localities_congr db₁ db₂ u.id u.name _ (hl u hum) (hc u hum)]

/-- C10: `generate()` is deterministic — two runs over the same working
directory whose child queries return the same row sequences at every
queried parent perform exactly the same operation sequence: the same
directory creations and the same writes of the same contents to the
same index-file paths. -/
theorem c10_deterministic (db₁ db₂ : DB)
    (hg : db₁.gubernias = db₂.gubernias)
    (hu : ∀ g ∈ db₁.gubernias, db₁.uezds g.id = db₂.uezds g.id)
    (hl : ∀ g ∈ db₁.gubernias, ∀ u ∈ db₁.uezds g.id,
        db₁.localities u.id = db₂.localities u.id)
    (hc : ∀ g ∈ db₁.gubernias, ∀ u ∈ db₁.uezds g.id, ∀ l ∈ db₁.localities u.id,
        db₁.churches l.id = db₂.churches l.id) :
    generateOps db₁ = generateOps db₂ := by
  rw [generateOps, generateOps, gen_gubernias, gen_gubernias, hg]
  congr 1
  congr 1
  apply List.flatMap_congr
  intro g hg'
  have hgm : g ∈ db₁.gubernias := hg.symm ▸ hg'
  rw [gen_uezds_congr db₁ db₂ g.id g.name _ (hu g hgm) (hl g hgm) (hc g hgm)]

theorem c10_deterministic_witness :
    (exDbA.gubernias = exDbB.gubernias ∧
      (∀ g ∈ exDbA.gubernias, exDbA.uezds g.id = exDbB.uezds g.id) ∧
      (∀ g ∈ exDbA.gubernias, ∀ u ∈ exDbA.uezds g.id,
        exDbA.localities u.id = exDbB.localities u.id) ∧
      (∀ g ∈ exDbA.gubernias, ∀ u ∈ exDbA.uezds g.id, ∀ l ∈ exDbA.localities u.id,
        exDbA.churches l.id = exDbB.churches l.id)) ∧
    generateOps exDbA = generateOps exDbB :=
  ⟨⟨by decide, by decide, by decide, by decide⟩,
    c10_deterministic exDbA exDbB (by decide) (by decide) (by decide) (by decide)⟩

theorem sum_map_const_one {α : Type} (l : List α) :
    (l.map (fun _ => 1)).sum = l.length := by
  induction l <;> simp [*, Nat.add_comm]

theorem sum_map_zero {α : Type} (l : List α) (f : α → Nat)
    (h : ∀ x ∈ l, f x = 0) : (l.map f).sum = 0 := by
  induction l with
  | nil => simp
  | cons a t ih =>
    rw [List.map_cons, List.sum_cons, h a (List.mem_cons_self a t),
      ih (fun x hx => h x (List.mem_cons_of_mem a hx))]

theorem sum_map_single {α : Type} (key : α → String) (f : α → Nat) :
    ∀ (l : List α) (x : α), x ∈ l → (l.map key).Nodup →
      (∀ y ∈ l, key y ≠ key x → f y = 0) → (l.map f).sum = f x := by
  intro l
  induction l with
  | nil => intro x hx; cases hx
  | cons a t ih =>
    intro x hx hnd hz
    rw [List.map_cons, List.nodup_cons] at hnd
    obtain ⟨hna, hndt⟩ := hnd
    rw [List.map_cons, List.sum_cons]
    by_cases hk : key a = key x
    · have hxa : x = a := by
        rcases List.mem_cons.mp hx with h | h
        · exact h
        · exfalso
          have hmem : key x ∈ t.map key := List.mem_map_of_mem key h
          rw [← hk] at hmem
          exact hna hmem
      subst hxa
      have hzt : ∀ y ∈ t, f y = 0 := by
        intro y hy
        by_cases hky : key y = key x
        · exact absurd (hky ▸ List.mem_map_of_mem key hy) hna
        · exact hz y (List.mem_cons_of_mem _ hy) hky
      rw [sum_map_zero t f hzt]
      simp
    · have hfa : f a = 0 := hz a (List.mem_cons_self a t) hk
      have hxt : x ∈ t := by
        rcases List.mem_cons.mp hx with h | h
        · exact absurd (congrArg key h.symm) hk
        · exact h
      rw [hfa,
        ih x hxt hndt (fun y hy hky => hz y (List.mem_cons_of_mem a hy) hky)]
      simp

theorem targets_generate_dirs (db : DB) :
    mkdirTargets (generateOps db) =
      ["nsa", "cfp"] :: db.gubernias.flatMap (fun g => gubDirP g :: uezdSub db g) := by
  rw [targets_generate]
  simp only [uezdSub, locSub, gubDirP, uezdDirP, locDirP, chDirP]

theorem mem_locSub (db : DB) (g u : Row) (p : FsPath) (hp : p ∈ locSub db g u) :
    (∃ l, l ∈ db.localities u.id ∧ p = locDirP g u l) ∨
      (∃ l ch, l ∈ db.localities u.id ∧ ch ∈ db.churches l.id ∧ p = chDirP g u l ch) := by
  simp only [locSub, List.mem_flatMap, List.mem_cons, List.mem_map] at hp
  rcases hp with ⟨l, hl, rfl | ⟨ch, hch, rfl⟩⟩
  · exact Or.inl ⟨l, hl, rfl⟩
  · exact Or.inr ⟨l, ch, hl, hch, rfl⟩

theorem mem_uezdSub (db : DB) (g : Row) (p : FsPath) (hp : p ∈ uezdSub db g) :
    (∃ u, u ∈ db.uezds g.id ∧ p = uezdDirP g u) ∨
      (∃ u l, u ∈ db.uezds g.id ∧ l ∈ db.localities u.id ∧ p = locDirP g u l) ∨
      (∃ u l ch, u ∈ db.uezds g.id ∧ l ∈ db.localities u.id ∧
        ch ∈ db.churches l.id ∧ p = chDirP g u l ch) := by
  simp only [uezdSub, List.mem_flatMap, List.mem_cons] at hp
  rcases hp with ⟨u, hu, rfl | hp⟩
  · exact Or.inl ⟨u, hu, rfl⟩
  · rcases mem_locSub db g u p hp with ⟨l, hl, rfl⟩ | ⟨l, ch, hl, hch, rfl⟩
    · exact Or.inr (Or.inl ⟨u, l, hu, hl, rfl⟩)
    · exact Or.inr (Or.inr ⟨u, l, ch, hu, hl, hch, rfl⟩)

theorem icd_false_of_len (parent : FsPath) (kind : String) (p : FsPath)
    (h : p.length ≠ parent.length + 2) : isChildDir parent kind p = false := by
  simp only [isChildDir, decide_eq_false_iff_not]
  intro hand
  exact h hand.1

theorem icd_root_gub (g : Row) :
    isChildDir (["nsa", "cfp"]) ("gubernia") (gubDirP g) = true := by
  simp [isChildDir, gubDirP]

theorem icd_gub_uezd (g' g u : Row) :
    isChildDir (gubDirP g') ("uezd") (uezdDirP g u)
      = decide (toString g.id = toString g'.id) := by
  simp only [isChildDir, gubDirP, uezdDirP]
  rw [decide_eq_decide]
  simp [List.take, and_comm]

theorem icd_uezd_loc (g' u' g u l : Row) :
    isChildDir (uezdDirP g' u') ("locality") (locDirP g u l)
      = decide (toString g.id = toString g'.id ∧ toString u.id = toString u'.id) := by
  simp only [isChildDir, uezdDirP, locDirP]
  rw [decide_eq_decide]
  simp [List.take]

theorem icd_loc_ch (g' u' l' g u l ch : Row) :
    isChildDir (locDirP g' u' l') ("church") (chDirP g u l ch)
      = decide (toString g.id = toString g'.id ∧ toString u.id = toString u'.id ∧
          toString l.id = toString l'.id) := by
  simp only [isChildDir, locDirP, chDirP]
  rw [decide_eq_decide]
  simp [List.take]

theorem cnt1_uezdSub (db : DB) (g : Row) :
    (uezdSub db g).countP (isChildDir (["nsa", "cfp"]) ("gubernia")) = 0 := by
  rw [List.countP_eq_zero]
  intro p hp
  rcases mem_uezdSub db g p hp with ⟨u, _, rfl⟩ | ⟨u, l, _, _, rfl⟩ |
    ⟨u, l, ch, _, _, _, rfl⟩
  · rw [icd_false_of_len _ _ _ (by simp [uezdDirP])]; simp
  · rw [icd_false_of_len _ _ _ (by simp [locDirP])]; simp
  · rw [icd_false_of_len _ _ _ (by simp [chDirP])]; simp

theorem cnt1 (db : DB) :
    childDirCount db (["nsa", "cfp"]) ("gubernia") = db.gubernias.length := by
  rw [childDirCount, targets_generate_dirs, List.countP_cons, List.countP_flatMap,
    icd_false_of_len (["nsa", "cfp"]) ("gubernia") (["nsa", "cfp"]) (by simp)]
  have hb : ∀ g ∈ db.gubernias,
      (List.countP (isChildDir (["nsa", "cfp"]) ("gubernia")) ∘
        fun g => gubDirP g :: uezdSub db g) g = 1 := by
    intro g _
    simp only [Function.comp_apply]
    rw [List.countP_cons, cnt1_uezdSub, icd_root_gub]
    simp
  rw [List.map_congr_left hb, sum_map_const_one]
  simp

theorem cnt2_locSub (db : DB) (g' g u : Row) :
    (locSub db g u).countP (isChildDir (gubDirP g') ("uezd")) = 0 := by
  rw [List.countP_eq_zero]
  intro p hp
  rcases mem_locSub db g u p hp with ⟨l, _, rfl⟩ | ⟨l, ch, _, _, rfl⟩
  · rw [icd_false_of_len _ _ _ (by simp [locDirP, gubDirP])]; simp
  · rw [icd_false_of_len _ _ _ (by simp [chDirP, gubDirP])]; simp

theorem cnt2_block (db : DB) (g' g : Row) :
    (gubDirP g :: uezdSub db g).countP (isChildDir (gubDirP g') ("uezd"))
      = if toString g.id = toString g'.id then (db.uezds g.id).length else 0 := by
  rw [List.countP_cons, icd_false_of_len _ _ _ (by simp [gubDirP]),
    uezdSub, List.countP_flatMap]
  have hb : ∀ u ∈ db.uezds g.id,
      (List.countP (isChildDir (gubDirP g') ("uezd")) ∘
        fun u => uezdDirP g u :: locSub db g u) u
        = if toString g.id = toString g'.id then 1 else 0 := by
    intro u _
    simp only [Function.comp_apply]
    rw [List.countP_cons, cnt2_locSub, icd_gub_uezd]
    by_cases h : toString g.id = toString g'.id <;> simp [h]
  rw [List.map_congr_left hb]
  by_cases h : toString g.id = toString g'.id
  · simp only [h, if_true]
    rw [sum_map_const_one]
    simp
  · simp only [h, if_false]
    rw [sum_map_zero _ _ (fun x _ => rfl)]
    simp

theorem cnt2 (db : DB) (g' : Row) (hg' : g' ∈ db.gubernias)
    (hnd1 : (db.gubernias.map (fun r => toString r.id)).Nodup) :
    childDirCount db (gubDirP g') ("uezd") = (db.uezds g'.id).length := by
  rw [childDirCount, targets_generate_dirs, List.countP_cons, List.countP_flatMap,
    icd_false_of_len _ _ _ (by simp [gubDirP])]
  have hz : ∀ y ∈ db.gubernias, toString y.id ≠ toString g'.id →
      (fun g => (gubDirP g :: uezdSub db g).countP
        (isChildDir (gubDirP g') ("uezd"))) y = 0 := by
    intro y _ hky
    simp only []
    rw [cnt2_block]
    simp [hky]
  have hs := sum_map_single (fun r => toString r.id)
    (fun g => (gubDirP g :: uezdSub db g).countP (isChildDir (gubDirP g') ("uezd")))
    db.gubernias g' hg' hnd1 hz
  simp only [Function.comp_def] at *
  rw [hs, cnt2_block]
  simp

theorem cnt3_chMap (db : DB) (g' u' g u l : Row) :
    ((db.churches l.id).map (fun ch => chDirP g u l ch)).countP
      (isChildDir (uezdDirP g' u') ("locality")) = 0 := by
  rw [List.countP_eq_zero]
  intro p hp
  rcases List.mem_map.mp hp with ⟨ch, _, rfl⟩
  rw [icd_false_of_len _ _ _ (by simp [chDirP, uezdDirP])]; simp

theorem cnt3_u_block (db : DB) (g' u' g u : Row) :
    (uezdDirP g u :: locSub db g u).countP (isChildDir (uezdDirP g' u') ("locality"))
      = if toString g.id = toString g'.id ∧ toString u.id = toString u'.id
          then (db.localities u.id).length else 0 := by
  rw [List.countP_cons, icd_false_of_len _ _ _ (by simp [uezdDirP]),
    locSub, List.countP_flatMap]
  have hb : ∀ l ∈ db.localities u.id,
      (List.countP (isChildDir (uezdDirP g' u') ("locality")) ∘
        fun l => locDirP g u l :: (db.churches l.id).map (fun ch => chDirP g u l ch)) l
        = if toString g.id = toString g'.id ∧ toString u.id = toString u'.id
            then 1 else 0 := by
    intro l _
    simp only [Function.comp_apply]
    rw [List.countP_cons, cnt3_chMap, icd_uezd_loc]
    by_cases h : toString g.id = toString g'.id ∧ toString u.id = toString u'.id <;>
      simp [h]
  rw [List.map_congr_left hb]
  by_cases h : toString g.id = toString g'.id ∧ toString u.id = toString u'.id
  · simp only [if_pos h]
    rw [sum_map_const_one]
    simp
  · simp only [if_neg h]
    rw [sum_map_zero _ _ (fun x _ => rfl)]
    simp

theorem cnt3_g_zero (db : DB) (g' u' y : Row) (hky : toString y.id ≠ toString g'.id) :
    (gubDirP y :: uezdSub db y).countP (isChildDir (uezdDirP g' u') ("locality")) = 0 := by
  rw [List.countP_cons, icd_false_of_len _ _ _ (by simp [gubDirP, uezdDirP]),
    uezdSub, List.countP_flatMap]
  have hb : ∀ u ∈ db.uezds y.id,
      (List.countP (isChildDir (uezdDirP g' u') ("locality")) ∘
        fun u => uezdDirP y u :: locSub db y u) u = 0 := by
    intro u _
    simp only [Function.comp_apply]
    rw [cnt3_u_block]
    simp [hky]
  rw [List.map_congr_left hb, sum_map_zero _ _ (fun x _ => rfl)]
  simp

theorem cnt3_g_own (db : DB) (g' u' : Row) (hu' : u' ∈ db.uezds g'.id)
    (hnd2 : ((db.uezds g'.id).map (fun r => toString r.id)).Nodup) :
    (gubDirP g' :: uezdSub db g').countP (isChildDir (uezdDirP g' u') ("locality"))
      = (db.localities u'.id).length := by
  rw [List.countP_cons, icd_false_of_len _ _ _ (by simp [gubDirP, uezdDirP]),
    uezdSub, List.countP_flatMap]
  have hz : ∀ y ∈ db.uezds g'.id, toString y.id ≠ toString u'.id →
      (fun u => (uezdDirP g' u :: locSub db g' u).countP
        (isChildDir (uezdDirP g' u') ("locality"))) y = 0 := by
    intro y _ hky
    simp only []
    rw [cnt3_u_block]
    simp [hky]
  have hs := sum_map_single (fun r => toString r.id)
    (fun u => (uezdDirP g' u :: locSub db g' u).countP
      (isChildDir (uezdDirP g' u') ("locality")))
    (db.uezds g'.id) u' hu' hnd2 hz
  simp only [Function.comp_def] at *
  rw [hs, cnt3_u_block]
  simp

theorem cnt3 (db : DB) (g' u' : Row) (hg' : g' ∈ db.gubernias)
    (hu' : u' ∈ db.uezds g'.id)
    (hnd1 : (db.gubernias.map (fun r => toString r.id)).Nodup)
    (hnd2 : ((db.uezds g'.id).map (fun r => toString r.id)).Nodup) :
    childDirCount db (uezdDirP g' u') ("locality") = (db.localities u'.id).length := by
  rw [childDirCount, targets_generate_dirs, List.countP_cons, List.countP_flatMap,
    icd_false_of_len _ _ _ (by simp [uezdDirP])]
  have hz : ∀ y ∈ db.gubernias, toString y.id ≠ toString g'.id →
      (fun g => (gubDirP g :: uezdSub db g).countP
        (isChildDir (uezdDirP g' u') ("locality"))) y = 0 := by
    intro y _ hky
    simp only []
    exact cnt3_g_zero db g' u' y hky
  have hs := sum_map_single (fun r => toString r.id)
    (fun g => (gubDirP g :: uezdSub db g).countP
      (isChildDir (uezdDirP g' u') ("locality")))
    db.gubernias g' hg' hnd1 hz
  simp only [Function.comp_def] at *
  rw [hs, cnt3_g_own db g' u' hu' hnd2]
  simp

theorem cnt4_l_block (db : DB) (g' u' l' g u l : Row) :
    (locDirP g u l :: (db.churches l.id).map (fun ch => chDirP g u l ch)).countP
        (isChildDir (locDirP g' u' l') ("church"))
      = if toString g.id = toString g'.id ∧ toString u.id = toString u'.id ∧
            toString l.id = toString l'.id
          then (db.churches l.id).length else 0 := by
  rw [List.countP_cons, icd_false_of_len _ _ _ (by simp [locDirP])]
  by_cases h : toString g.id = toString g'.id ∧ toString u.id = toString u'.id ∧
      toString l.id = toString l'.id
  · rw [if_pos h, List.countP_eq_length.mpr]
    · simp
    · intro p hp
      rcases List.mem_map.mp hp with ⟨ch, _, rfl⟩
      rw [icd_loc_ch]
      simp [h.1, h.2.1, h.2.2]
  · rw [if_neg h, List.countP_eq_zero.mpr]
    · simp
    · intro p hp
      rcases List.mem_map.mp hp with ⟨ch, _, rfl⟩
      rw [icd_loc_ch]
      simp only [decide_eq_true_eq]
      exact h

theorem cnt4_u_zero (db : DB) (g' u' l' g u : Row)
    (h : ¬ (toString g.id = toString g'.id ∧ toString u.id = toString u'.id)) :
    (uezdDirP g u :: locSub db g u).countP
      (isChildDir (locDirP g' u' l') ("church")) = 0 := by
  rw [List.countP_cons, icd_false_of_len _ _ _ (by simp [uezdDirP, locDirP]),
    locSub, List.countP_flatMap]
  have hb : ∀ l ∈ db.localities u.id,
      (List.countP (isChildDir (locDirP g' u' l') ("church")) ∘
        fun l => locDirP g u l :: (db.churches l.id).map (fun ch => chDirP g u l ch)) l
        = 0 := by
    intro l _
    simp only [Function.comp_apply]
    rw [cnt4_l_block, if_neg (by tauto)]
  rw [List.map_congr_left hb, sum_map_zero _ _ (fun x _ => rfl)]
  simp

theorem cnt4_u_own (db : DB) (g' u' l' : Row) (hl' : l' ∈ db.localities u'.id)
    (hnd3 : ((db.localities u'.id).map (fun r => toString r.id)).Nodup) :
    (uezdDirP g' u' :: locSub db g' u').countP
      (isChildDir (locDirP g' u' l') ("church")) = (db.churches l'.id).length := by
  rw [List.countP_cons, icd_false_of_len _ _ _ (by simp [uezdDirP, locDirP]),
    locSub, List.countP_flatMap]
  have hz : ∀ y ∈ db.localities u'.id, toString y.id ≠ toString l'.id →
      (fun l => (locDirP g' u' l
          :: (db.churches l.id).map (fun ch => chDirP g' u' l ch)).countP
        (isChildDir (locDirP g' u' l') ("church"))) y = 0 := by
    intro y _ hky
    simp only []
    rw [cnt4_l_block, if_neg (by tauto)]
  have hs := sum_map_single (fun r => toString r.id)
    (fun l => (locDirP g' u' l
        :: (db.churches l.id).map (fun ch => chDirP g' u' l ch)).countP
      (isChildDir (locDirP g' u' l') ("church")))
    (db.localities u'.id) l' hl' hnd3 hz
  simp only [Function.comp_def] at *
  rw [hs, cnt4_l_block, if_pos (by simp)]
  simp

theorem cnt4_g_zero (db : DB) (g' u' l' y : Row)
    (hky : toString y.id ≠ toString g'.id) :
    (gubDirP y :: uezdSub db y).countP
      (isChildDir (locDirP g' u' l') ("church")) = 0 := by
  rw [List.countP_cons, icd_false_of_len _ _ _ (by simp [gubDirP, locDirP]),
    uezdSub, List.countP_flatMap]
  have hb : ∀ u ∈ db.uezds y.id,
      (List.countP (isChildDir (locDirP g' u' l') ("church")) ∘
        fun u => uezdDirP y u :: locSub db y u) u = 0 := by
    intro u _
    simp only [Function.comp_apply]
    exact cnt4_u_zero db g' u' l' y u (by tauto)
  rw [List.map_congr_left hb, sum_map_zero _ _ (fun x _ => rfl)]
  simp

theorem cnt4_g_own (db : DB) (g' u' l' : Row) (hu' : u' ∈ db.uezds g'.id)
    (hl' : l' ∈ db.localities u'.id)
    (hnd2 : ((db.uezds g'.id).map (fun r => toString r.id)).Nodup)
    (hnd3 : ((db.localities u'.id).map (fun r => toString r.id)).Nodup) :
    (gubDirP g' :: uezdSub db g').countP
      (isChildDir (locDirP g' u' l') ("church")) = (db.churches l'.id).length := by
  rw [List.countP_cons, icd_false_of_len _ _ _ (by simp [gubDirP, locDirP]),
    uezdSub, List.countP_flatMap]
  have hz : ∀ y ∈ db.uezds g'.id, toString y.id ≠ toString u'.id →
      (fun u => (uezdDirP g' u :: locSub db g' u).countP
        (isChildDir (locDirP g' u' l') ("church"))) y = 0 := by
    intro y _ hky
    simp only []
    exact cnt4_u_zero db g' u' l' g' y (by tauto)
  have hs := sum_map_single (fun r => toString r.id)
    (fun u => (uezdDirP g' u :: locSub db g' u).countP
      (isChildDir (locDirP g' u' l') ("church")))
    (db.uezds g'.id) u' hu' hnd2 hz
  simp only [Function.comp_def] at *
  rw [hs]
  exact cnt4_u_own db g' u' l' hl' hnd3

theorem cnt4 (db : DB) (g' u' l' : Row) (hg' : g' ∈ db.gubernias)
    (hu' : u' ∈ db.uezds g'.id) (hl' : l' ∈ db.localities u'.id)
    (hnd1 : (db.gubernias.map (fun r => toString r.id)).Nodup)
    (hnd2 : ((db.uezds g'.id).map (fun r => toString r.id)).Nodup)
    (hnd3 : ((db.localities u'.id).map (fun r => toString r.id)).Nodup) :
    childDirCount db (locDirP g' u' l') ("church") = (db.churches l'.id).length := by
  rw [childDirCount, targets_generate_dirs, List.countP_cons, List.countP_flatMap,
    icd_false_of_len _ _ _ (by simp [locDirP])]
  have hz : ∀ y ∈ db.gubernias, toString y.id ≠ toString g'.id →
      (fun g => (gubDirP g :: uezdSub db g).countP
        (isChildDir (locDirP g' u' l') ("church"))) y = 0 := by
    intro y _ hky
    simp only []
    exact cnt4_g_zero db g' u' l' y hky
  have hs := sum_map_single (fun r => toString r.id)
    (fun g => (gubDirP g :: uezdSub db g).countP
      (isChildDir (locDirP g' u' l') ("church")))
    db.gubernias g' hg' hnd1 hz
  simp only [Function.comp_def] at *
  rw [hs, cnt4_g_own db g' u' l' hu' hl' hnd2 hnd3]
  simp

/-- C6: for every hierarchy level and every parent node reached by the
traversal, the number of `make_dirs` calls that target an immediate
child directory (`<kind>/<id>`) under that parent equals the number of
rows the parent's child query returns — at the root (gubernia) level
unconditionally, and at the deeper levels provided the id strings
returned for each queried parent are pairwise distinct (ids are primary
keys), so that no two parents' subtrees alias the same paths. -/
theorem c6_child_dir_counts (db : DB)
    (hnd1 : (db.gubernias.map (fun r => toString r.id)).Nodup)
    (hnd2 : ∀ g ∈ db.gubernias,
        ((db.uezds g.id).map (fun r => toString r.id)).Nodup)
    (hnd3 : ∀ g ∈ db.gubernias, ∀ u ∈ db.uezds g.id,
        ((db.localities u.id).map (fun r => toString r.id)).Nodup) :
    childDirCount db (["nsa", "cfp"]) ("gubernia") = db.gubernias.length ∧
      (∀ g ∈ db.gubernias,
        childDirCount db (gubDirP g) ("uezd") = (db.uezds g.id).length) ∧
      (∀ g ∈ db.gubernias, ∀ u ∈ db.uezds g.id,
        childDirCount db (uezdDirP g u) ("locality") = (db.localities u.id).length) ∧
      (∀ g ∈ db.gubernias, ∀ u ∈ db.uezds g.id, ∀ l ∈ db.localities u.id,
        childDirCount db (locDirP g u l) ("church") = (db.churches l.id).length) :=
  ⟨cnt1 db,
    fun g hg => cnt2 db g hg hnd1,
    fun g hg u hu => cnt3 db g u hg hu hnd1 (hnd2 g hg),
    fun g hg u hu l hl =>
      cnt4 db g u l hg hu hl hnd1 (hnd2 g hg) (hnd3 g hg u hu)⟩

theorem c6_child_dir_counts_witness :
    ((exDb.gubernias.map (fun r => toString r.id)).Nodup ∧
      (∀ g ∈ exDb.gubernias,
        ((exDb.uezds g.id).map (fun r => toString r.id)).Nodup) ∧
      (∀ g ∈ exDb.gubernias, ∀ u ∈ exDb.uezds g.id,
        ((exDb.localities u.id).map (fun r => toString r.id)).Nodup)) ∧
    (childDirCount exDb (["nsa", "cfp"]) ("gubernia") = exDb.gubernias.length ∧
      (∀ g ∈ exDb.gubernias,
        childDirCount exDb (gubDirP g) ("uezd") = (exDb.uezds g.id).length) ∧
      (∀ g ∈ exDb.gubernias, ∀ u ∈ exDb.uezds g.id,
        childDirCount exDb (uezdDirP g u) ("locality")
          = (exDb.localities u.id).length) ∧
      (∀ g ∈ exDb.gubernias, ∀ u ∈ exDb.uezds g.id, ∀ l ∈ exDb.localities u.id,
        childDirCount exDb (locDirP g u l) ("church")
          = (exDb.churches l.id).length)) :=
  ⟨⟨by decide, by decide, by decide⟩,
    c6_child_dir_counts exDb (by decide) (by decide) (by decide)⟩
